import Mathlib

/-!
Verification of the inngest-cleanup repository against its specification.

The repository contains several rewrites of the same cleanup logic:
`src/cleanupv2.py`, `src/cleanup_events.py`, `src/cleanup_events_v1.py`,
`src/v2/cleanup_inngest_env.py` and `src/v3/cleanup_inngest_env_with_redis.py`.
This file shallowly embeds the data model (relational rows), the batch
selectors, the batch deletors, the Redis liveness checks, the retry wrapper
and the orchestrator loops of those scripts, and proves or refutes the
frozen claims about them.

Conventions:
* identifiers are `Nat`; timestamps are `Nat` ("older than a cutoff"
  means the timestamp is strictly below the cutoff value);
* a SQL table is a `List` of row structures; filtering/sorting/limiting
  mirror the WHERE / ORDER BY / LIMIT clauses of the embedded query;
* Redis calls and SQL statements that can raise are modelled with
  `Except`, with an abstract oracle choosing success or failure.
-/

namespace InngestCleanup

/-- Row of table `events` (columns used by the cleaners: `internal_id`,
`received_at`). -/
structure EventRow where
  internalId : Nat
  receivedAt : Nat
  deriving DecidableEq, Repr

/-- Row of table `function_runs` (columns used: `run_id`, `run_started_at`,
`event_id` (nullable), `original_run_id` (nullable)). -/
structure RunRow where
  runId : Nat
  runStartedAt : Nat
  eventId : Option Nat
  originalRunId : Option Nat
  deriving DecidableEq, Repr

/-- Row of table `function_finishes` (columns used: `run_id`, `created_at`). -/
structure FinishRow where
  runId : Nat
  createdAt : Nat
  deriving DecidableEq, Repr

/-- Row of table `history` (columns used: `id`, `run_id`, `event_id`
(nullable), `created_at`). -/
structure HistoryRow where
  hid : Nat
  runId : Nat
  eventId : Option Nat
  createdAt : Nat
  deriving DecidableEq, Repr

/-- Row of table `event_batches`; `event_ids` is a packed collection of
event identifiers, modelled as the list of contained ids. -/
structure BatchRow where
  bid : Nat
  eventIds : List Nat
  deriving DecidableEq, Repr

/-- Row of table `trace_runs` (columns used: `run_id`, `ended_at`
(nullable)). -/
structure TraceRunRow where
  runId : Nat
  endedAt : Option Nat
  deriving DecidableEq, Repr

/-- Row of table `traces` (column used: `run_id`). -/
structure TraceRow where
  tid : Nat
  runId : Nat
  deriving DecidableEq, Repr

/-- A snapshot of the relational database: the tables the cleanup scripts
touch. -/
structure Env where
  events : List EventRow
  functionRuns : List RunRow
  functionFinishes : List FinishRow
  history : List HistoryRow
  eventBatches : List BatchRow
  traceRuns : List TraceRunRow
  traces : List TraceRow
  deriving DecidableEq, Repr

/-- The empty database. -/
def Env.empty : Env := ⟨[], [], [], [], [], [], []⟩

/-! ### Ordering helper: the model of SQL `ORDER BY key ASC`

A stable insertion sort by a `Nat` key (ties keep table order, which is a
legal result of the SQL ordering). -/

/-- Insert an element into a list assumed sorted by `key`. -/
def insertByKey (key : α → Nat) (a : α) : List α → List α
  | [] => [a]
  | b :: bs => if key a ≤ key b then a :: b :: bs else b :: insertByKey key a bs

/-- Sort a list ascending by `key` (model of `ORDER BY key ASC`). -/
def sortByKey (key : α → Nat) : List α → List α
  | [] => []
  | a :: as => insertByKey key a (sortByKey key as)

/-- Decidable check that consecutive elements are ascending by `key`. -/
def ascendingBy (key : α → Nat) : List α → Bool
  | [] => true
  | [_] => true
  | a :: b :: rest => (key a ≤ key b) && ascendingBy key (b :: rest)

theorem mem_insertByKey (key : α → Nat) (a x : α) (l : List α) :
    x ∈ insertByKey key a l ↔ x = a ∨ x ∈ l := by
  induction l with
  | nil => simp [insertByKey]
  | cons b bs ih =>
    simp only [insertByKey]
    by_cases h : key a ≤ key b
    · simp only [if_pos h, List.mem_cons]
    · simp only [if_neg h, List.mem_cons, ih]
      tauto

theorem mem_sortByKey (key : α → Nat) (x : α) (l : List α) :
    x ∈ sortByKey key l ↔ x ∈ l := by
  induction l with
  | nil => simp [sortByKey]
  | cons a as ih =>
    simp only [sortByKey, mem_insertByKey, ih, List.mem_cons]

theorem ascendingBy_tail (key : α → Nat) (a : α) (l : List α)
    (h : ascendingBy key (a :: l) = true) : ascendingBy key l = true := by
  cases l with
  | nil => rfl
  | cons b bs =>
    simp only [ascendingBy, Bool.and_eq_true] at h
    exact h.2

theorem length_insertByKey (key : α → Nat) (a : α) (l : List α) :
    (insertByKey key a l).length = l.length + 1 := by
  induction l with
  | nil => rfl
  | cons b bs ih =>
    simp only [insertByKey]
    by_cases h : key a ≤ key b
    · simp [h]
    · simp [h, ih]

theorem length_sortByKey (key : α → Nat) (l : List α) :
    (sortByKey key l).length = l.length := by
  induction l with
  | nil => rfl
  | cons a as ih => simp [sortByKey, length_insertByKey, ih]

theorem ascendingBy_cons (key : α → Nat) (a : α) (l : List α)
    (hhead : ∀ x ∈ l.head?, key a ≤ key x)
    (hl : ascendingBy key l = true) : ascendingBy key (a :: l) = true := by
  cases l with
  | nil => rfl
  | cons b bs =>
    have := hhead b (by simp)
    simp [ascendingBy, this, hl]

theorem ascendingBy_insertByKey (key : α → Nat) (a : α) (l : List α)
    (hl : ascendingBy key l = true) :
    ascendingBy key (insertByKey key a l) = true := by
  induction l with
  | nil => rfl
  | cons b bs ih =>
    simp only [insertByKey]
    by_cases h : key a ≤ key b
    · simp only [if_pos h]
      exact ascendingBy_cons key a (b :: bs) (by simpa using h) hl
    · simp only [if_neg h]
      have hbs : ascendingBy key bs = true := ascendingBy_tail key b bs hl
      have hins := ih hbs
      apply ascendingBy_cons key b (insertByKey key a bs) _ hins
      intro x hx
      cases bs with
      | nil =>
        simp [insertByKey] at hx
        subst hx
        omega
      | cons c cs =>
        have hbc : key b ≤ key c := by
          have := hl
          simp [ascendingBy, Bool.and_eq_true] at this
          exact this.1
        simp only [insertByKey] at hx
        by_cases hac : key a ≤ key c
        · simp [hac] at hx
          subst hx
          omega
        · simp [hac] at hx
          subst hx
          exact hbc

theorem ascendingBy_sortByKey (key : α → Nat) (l : List α) :
    ascendingBy key (sortByKey key l) = true := by
  induction l with
  | nil => rfl
  | cons a as ih => exact ascendingBy_insertByKey key a (sortByKey key as) ih

theorem ascendingBy_take (key : α → Nat) (l : List α) (n : Nat)
    (hl : ascendingBy key l = true) : ascendingBy key (l.take n) = true := by
  induction l generalizing n with
  | nil => simpa using hl
  | cons a as ih =>
    cases n with
    | zero => rfl
    | succ m =>
      cases as with
      | nil => cases m <;> rfl
      | cons b bs =>
        simp only [ascendingBy, Bool.and_eq_true, decide_eq_true_eq] at hl
        cases m with
        | zero => rfl
        | succ k =>
          have htail := ih (n := k + 1) hl.2
          simp only [List.take]
          exact ascendingBy_cons key a _ (by
            intro x hx
            simp [List.take, List.head?] at hx
            subst hx
            exact hl.1) htail

/-! ### Redis liveness model (src/v3/cleanup_inngest_env_with_redis.py)

Every Redis call either returns a value or raises; an abstract oracle
fixes, per run identifier, what each call does.  Run identifiers are the
decoded ids handed to the checks. -/

/-- Abstract behaviour of the Redis client for the calls the v3 checks
perform: `exists` on the `pr:` key, the `metadata:`/`stack:` pattern scans,
`smembers` on the `pr:` key and `exists` on a `pauses:` key.  `.error ()`
models the call raising (store unreachable, timeout, ...). -/
structure RedisOracle where
  existsPr : Nat → Except Unit Bool
  scanMetadata : Nat → Except Unit Bool
  scanStack : Nat → Except Unit Bool
  smembersPr : Nat → Except Unit (List Nat)
  existsPause : Nat → Except Unit Bool

/-- Body of the `try` block of `check_run_active_in_redis`: checks the
`pr:` key, then the `metadata:` scan, then the `stack:` scan; a raise
anywhere lands in the `except` branch, which returns `True`. -/
def checkRunActiveCore (o : RedisOracle) (runId : Nat) : Bool :=
  match o.existsPr runId with
  | .error _ => true
  | .ok true => true
  | .ok false =>
    match o.scanMetadata runId with
    | .error _ => true
    | .ok true => true
    | .ok false =>
      match o.scanStack runId with
      | .error _ => true
      | .ok true => true
      | .ok false => false

/-- Source: `RedisAwareInngestCleaner.check_run_active_in_redis` (v3, lines
136-167): returns `false` when no client is set; otherwise runs the
`try` body above. -/
def check_run_active_in_redis (client : Option RedisOracle) (runId : Nat) : Bool :=
  match client with
  | none => false
  | some o => checkRunActiveCore o runId

/-- Inner loop of `check_run_has_active_pauses`: for each pause id, check
that its `pauses:` key still exists; a raise anywhere in the loop lands in
the `except` branch, which returns `True`. -/
def anyPauseActive (o : RedisOracle) : List Nat → Bool
  | [] => false
  | p :: ps =>
    match o.existsPause p with
    | .error _ => true
    | .ok true => true
    | .ok false => anyPauseActive o ps

/-- Body of the `try` block of `check_run_has_active_pauses`: `smembers`
on the `pr:` key, then existence of each pause; raises are caught and
turned into `True`. -/
def checkRunPausesCore (o : RedisOracle) (runId : Nat) : Bool :=
  match o.smembersPr runId with
  | .error _ => true
  | .ok pauseIds => anyPauseActive o pauseIds

/-- Source: `RedisAwareInngestCleaner.check_run_has_active_pauses` (v3, lines
169-192): returns `false` when no client is set; otherwise runs the
`try` body above. -/
def check_run_has_active_pauses (client : Option RedisOracle) (runId : Nat) : Bool :=
  match client with
  | none => false
  | some o => checkRunPausesCore o runId

/-- Source: `Except.isOk` style helper: `true` iff the call did not raise. -/
def callOk : Except Unit β → Bool
  | .ok _ => true
  | .error _ => false

theorem check_run_active_eq_false_no_raise (o : RedisOracle) (runId : Nat)
    (h : check_run_active_in_redis (some o) runId = false) :
    o.existsPr runId = .ok false ∧ o.scanMetadata runId = .ok false ∧
      o.scanStack runId = .ok false := by
  have h' : checkRunActiveCore o runId = false := h
  unfold checkRunActiveCore at h'
  rcases h1 : o.existsPr runId with e | b <;> rw [h1] at h'
  · exact absurd h' (by simp)
  · cases b
    · rcases h2 : o.scanMetadata runId with e | b2 <;> rw [h2] at h'
      · exact absurd h' (by simp)
      · cases b2
        · rcases h3 : o.scanStack runId with e | b3 <;> rw [h3] at h'
          · exact absurd h' (by simp)
          · cases b3
            · exact ⟨rfl, rfl, rfl⟩
            · exact absurd h' (by simp)
        · exact absurd h' (by simp)
    · exact absurd h' (by simp)

theorem check_pauses_eq_false_no_raise (o : RedisOracle) (runId : Nat)
    (h : check_run_has_active_pauses (some o) runId = false) :
    callOk (o.smembersPr runId) = true := by
  have h' : checkRunPausesCore o runId = false := h
  unfold checkRunPausesCore at h'
  rcases h1 : o.smembersPr runId with e | l <;> rw [h1] at h'
  · exact absurd h' (by simp)
  · simp [callOk]

/-! ### v3 run selection (src/v3/cleanup_inngest_env_with_redis.py) -/

/-- Source: `EXISTS (SELECT 1 FROM function_finishes ff WHERE ff.run_id = rid)`. -/
def hasFinish (db : Env) (rid : Nat) : Bool :=
  db.functionFinishes.any (fun f => f.runId == rid)

/-- The `NOT EXISTS` subquery of the completed-runs query (v3 lines
240-246): a child run (`fr.original_run_id = ff.run_id`) that either has
no finish (`ff2.run_id IS NULL`) or finished at/after the cutoff. -/
def childBlocksFinish (db : Env) (cutoff : Nat) (rid : Nat) : Bool :=
  db.functionRuns.any (fun fr =>
    fr.originalRunId == some rid &&
      (!(hasFinish db fr.runId) ||
        db.functionFinishes.any (fun f2 => f2.runId == fr.runId && cutoff ≤ f2.createdAt)))

/-- Completed-runs query of `get_function_runs_to_delete` (v3 lines
235-251): finishes older than the cutoff with no blocking child,
`ORDER BY ff.run_id`, `LIMIT batch_size`. -/
def completedRunsV3 (db : Env) (cutoff batchSize : Nat) : List Nat :=
  (((db.functionFinishes.filter
        (fun ff => ff.createdAt < cutoff && !(childBlocksFinish db cutoff ff.runId))
      |> sortByKey (fun f => f.runId)).map (fun f => f.runId)).take batchSize)

/-- Incomplete-runs query (v3 lines 255-267): runs started before the
double cutoff with no finish, `ORDER BY fr.run_id`, `LIMIT lim`. -/
def incompleteRunsV3 (db : Env) (extCutoff lim : Nat) : List Nat :=
  (((db.functionRuns.filter
        (fun fr => fr.runStartedAt < extCutoff && !(hasFinish db fr.runId))
      |> sortByKey (fun r => r.runId)).map (fun r => r.runId)).take lim)

/-- Source: `filter_safe_to_delete_incomplete_runs` (v3 lines 194-220): keep only
the incomplete runs with no active Redis state and no active pauses. -/
def filterSafeIncomplete (client : Option RedisOracle) (runIds : List Nat) : List Nat :=
  runIds.filter (fun rid =>
    !(check_run_active_in_redis client rid || check_run_has_active_pauses client rid))

/-- Source: `RedisAwareInngestCleaner.get_function_runs_to_delete` (v3 lines
222-319): completed runs first; the incomplete-runs query is issued only
when the completed batch is not full, limited to the remaining capacity,
and its results pass through the Redis filter. -/
def getFunctionRunsToDeleteV3 (db : Env) (client : Option RedisOracle)
    (cutoff extCutoff batchSize : Nat) : List Nat :=
  let completed := completedRunsV3 db cutoff batchSize
  let incomplete :=
    if completed.length < batchSize then
      incompleteRunsV3 db extCutoff (batchSize - completed.length)
    else []
  completed ++ filterSafeIncomplete client incomplete

/-- Source: `RedisAwareInngestCleaner.clean_function_data` (v3 lines 400-471),
run-batch block only, as its effect on the database: deletes `history`,
`function_finishes` and `function_runs` rows whose `run_id` is in the
selected batch; dry-run returns immediately with no deletions. -/
def cleanFunctionDataV3 (db : Env) (client : Option RedisOracle) (dryRun : Bool)
    (cutoff extCutoff batchSize : Nat) : Env :=
  if dryRun then db else
  let ids := getFunctionRunsToDeleteV3 db client cutoff extCutoff batchSize
  if ids.isEmpty then db else
  { db with
    history := db.history.filter (fun h => !(ids.contains h.runId)),
    functionFinishes := db.functionFinishes.filter (fun f => !(ids.contains f.runId)),
    functionRuns := db.functionRuns.filter (fun r => !(ids.contains r.runId)) }

theorem mem_completedRunsV3_hasFinish (db : Env) (cutoff batchSize rid : Nat)
    (h : rid ∈ completedRunsV3 db cutoff batchSize) : hasFinish db rid = true := by
  unfold completedRunsV3 at h
  have h1 := List.take_subset _ _ h
  rcases List.mem_map.mp h1 with ⟨ff, hff, hrid⟩
  rw [mem_sortByKey] at hff
  have hmem := List.mem_of_mem_filter hff
  unfold hasFinish
  rw [List.any_eq_true]
  exact ⟨ff, hmem, by simp [hrid]⟩

theorem mem_incompleteRunsV3_started (db : Env) (extCutoff lim rid : Nat)
    (h : rid ∈ incompleteRunsV3 db extCutoff lim) :
    ∃ r ∈ db.functionRuns, r.runId = rid ∧ r.runStartedAt < extCutoff ∧
      hasFinish db r.runId = false := by
  unfold incompleteRunsV3 at h
  have h1 := List.take_subset _ _ h
  rcases List.mem_map.mp h1 with ⟨fr, hfr, hrid⟩
  rw [mem_sortByKey] at hfr
  have hmem := List.mem_of_mem_filter hfr
  have hpred := List.of_mem_filter hfr
  simp only [Bool.and_eq_true, decide_eq_true_eq, Bool.not_eq_true'] at hpred
  exact ⟨fr, hmem, hrid, hpred.1, hpred.2⟩

/-! ### Claim C3 -/

theorem anyPauseActive_of_raise (o : RedisOracle) (ps : List Nat)
    (h : ∃ p ∈ ps, callOk (o.existsPause p) = false) :
    anyPauseActive o ps = true := by
  induction ps with
  | nil => rcases h with ⟨p, hp, _⟩; cases hp
  | cons q qs ih =>
    unfold anyPauseActive
    rcases hq : o.existsPause q with e | b
    · rfl
    · cases b
      · rcases h with ⟨p, hp, hperr⟩
        rcases List.mem_cons.mp hp with rfl | hptail
        · rw [hq] at hperr; simp [callOk] at hperr
        · exact ih ⟨p, hptail, hperr⟩
      · rfl

/-- C3: the v3 liveness checks fail closed: if the Redis call behind
`check_run_active_in_redis` raises (modelled as `callOk _ = false`), the
check reports the run as live (`true`) and the run identifier never
passes `filter_safe_to_delete_incomplete_runs`; likewise for
`check_run_has_active_pauses` when `smembers` or a pause-existence call
raises. -/
theorem c3_liveness_checks_fail_closed (o : RedisOracle) (rid : Nat) :
    ((callOk (o.existsPr rid) = false ∨ callOk (o.scanMetadata rid) = false ∨
        callOk (o.scanStack rid) = false) →
      check_run_active_in_redis (some o) rid = true ∧
        ∀ l, rid ∉ filterSafeIncomplete (some o) l) ∧
    ((callOk (o.smembersPr rid) = false ∨
        (∃ ps, o.smembersPr rid = .ok ps ∧ ∃ p ∈ ps, callOk (o.existsPause p) = false)) →
      check_run_has_active_pauses (some o) rid = true ∧
        ∀ l, rid ∉ filterSafeIncomplete (some o) l) := by
  have hfilter_active : check_run_active_in_redis (some o) rid = true →
      ∀ l, rid ∉ filterSafeIncomplete (some o) l := by
    intro hact l hmem
    have hpred := List.of_mem_filter hmem
    simp only [Bool.not_eq_true', Bool.or_eq_false_iff] at hpred
    rw [hact] at hpred
    exact (by simp at hpred)
  have hfilter_pauses : check_run_has_active_pauses (some o) rid = true →
      ∀ l, rid ∉ filterSafeIncomplete (some o) l := by
    intro hact l hmem
    have hpred := List.of_mem_filter hmem
    simp only [Bool.not_eq_true', Bool.or_eq_false_iff] at hpred
    rw [hact] at hpred
    exact (by simp at hpred)
  constructor
  · intro herr
    have hact : check_run_active_in_redis (some o) rid = true := by
      by_contra hfalse
      rw [Bool.not_eq_true] at hfalse
      rcases check_run_active_eq_false_no_raise o rid hfalse with ⟨h1, h2, h3⟩
      rcases herr with h | h | h
      · rw [h1] at h; simp [callOk] at h
      · rw [h2] at h; simp [callOk] at h
      · rw [h3] at h; simp [callOk] at h
    exact ⟨hact, hfilter_active hact⟩
  · intro herr
    have hact : check_run_has_active_pauses (some o) rid = true := by
      rcases herr with h | ⟨ps, hps, hinner⟩
      · show checkRunPausesCore o rid = true
        unfold checkRunPausesCore
        rcases hq : o.smembersPr rid with e | l
        · rfl
        · rw [hq] at h; simp [callOk] at h
      · show checkRunPausesCore o rid = true
        unfold checkRunPausesCore
        rw [hps]
        exact anyPauseActive_of_raise o ps hinner
    exact ⟨hact, hfilter_pauses hact⟩

/-- C3 (witness): an oracle whose every call raises reports run 7 as live
on both checks, and run 7 never passes the safety filter. -/
theorem c3_liveness_checks_fail_closed_witness :
    check_run_active_in_redis
        (some ⟨fun _ => .error (), fun _ => .error (), fun _ => .error (),
          fun _ => .error (), fun _ => .error ()⟩) 7 = true ∧
    check_run_has_active_pauses
        (some ⟨fun _ => .error (), fun _ => .error (), fun _ => .error (),
          fun _ => .error (), fun _ => .error ()⟩) 7 = true ∧
    (7 : Nat) ∉ filterSafeIncomplete
        (some ⟨fun _ => .error (), fun _ => .error (), fun _ => .error (),
          fun _ => .error (), fun _ => .error ()⟩) [7] := by
  have h := c3_liveness_checks_fail_closed
    ⟨fun _ => .error (), fun _ => .error (), fun _ => .error (),
      fun _ => .error (), fun _ => .error ()⟩ 7
  have h1 := h.1 (Or.inl rfl)
  have h2 := h.2 (Or.inl rfl)
  exact ⟨h1.1, h2.1, h1.2 [7]⟩

/-! ### Batch-deletor statement sequences (src/cleanupv2.py, src/v3/...)

Each batch delete is modelled as the ordered list of DELETE statements the
code issues inside the transaction: target table plus the id list bound to
the statement. -/

/-- Tables targeted by the DELETE statements of the cleaners. -/
inductive Table
  | eventsT | functionRunsT | functionFinishesT | historyT | traceRunsT | tracesT
  deriving DecidableEq, Repr

/-- Selection query of `cleanup_function_data` (cleanupv2.py lines 56-70),
at row level: finishes older than the cutoff with no blocking child (same
`NOT EXISTS` subquery as v2/v3), `ORDER BY ff.created_at ASC`,
`LIMIT batch_size`. -/
def cleanupv2FunctionRunSelectionRows (db : Env) (cutoff batchSize : Nat) : List FinishRow :=
  ((db.functionFinishes.filter
      (fun ff => ff.createdAt < cutoff && !(childBlocksFinish db cutoff ff.runId))
    |> sortByKey (fun f => f.createdAt)).take batchSize)

/-- The `run_id` column of the rows selected above. -/
def cleanupv2FunctionRunSelection (db : Env) (cutoff batchSize : Nat) : List Nat :=
  (cleanupv2FunctionRunSelectionRows db cutoff batchSize).map (fun f => f.runId)

/-- DELETE sequence of `cleanup_function_data` (cleanupv2.py lines 77-81):
`function_runs` first, then `function_finishes`, then `history`. -/
def cleanupv2FunctionDeleteStmts (db : Env) (cutoff batchSize : Nat) :
    List (Table × List Nat) :=
  let ids := cleanupv2FunctionRunSelection db cutoff batchSize
  if ids.isEmpty then []
  else [(Table.functionRunsT, ids), (Table.functionFinishesT, ids), (Table.historyT, ids)]

/-- Source: `ended_at IS NOT NULL AND ended_at < cutoff`. -/
def endedBefore (cutoff : Nat) (t : TraceRunRow) : Bool :=
  match t.endedAt with
  | some e => e < cutoff
  | none => false

/-- Selection query of `cleanup_trace_data` (cleanupv2.py lines 144-154),
at row level: ended trace runs older than the cutoff, `ORDER BY ended_at
ASC`, `LIMIT batch_size`. -/
def cleanupv2TraceSelectionRows (db : Env) (cutoff batchSize : Nat) : List TraceRunRow :=
  ((db.traceRuns.filter (endedBefore cutoff)
    |> sortByKey (fun t => t.endedAt.getD 0)).take batchSize)

/-- The `run_id` column of the rows selected above. -/
def cleanupv2TraceSelection (db : Env) (cutoff batchSize : Nat) : List Nat :=
  (cleanupv2TraceSelectionRows db cutoff batchSize).map (fun t => t.runId)

/-- DELETE sequence of `cleanup_trace_data` (cleanupv2.py lines 159-162):
`traces` first, then `trace_runs`. -/
def cleanupv2TraceDeleteStmts (db : Env) (cutoff batchSize : Nat) :
    List (Table × List Nat) :=
  let ids := cleanupv2TraceSelection db cutoff batchSize
  if ids.isEmpty then [] else [(Table.tracesT, ids), (Table.traceRunsT, ids)]

/-- DELETE sequence of the run-batch block of `clean_function_data` (v3
lines 415-439): `history` first, then `function_finishes`, then
`function_runs`. -/
def v3FunctionDeleteStmts (db : Env) (client : Option RedisOracle)
    (cutoff extCutoff batchSize : Nat) : List (Table × List Nat) :=
  let ids := getFunctionRunsToDeleteV3 db client cutoff extCutoff batchSize
  if ids.isEmpty then []
  else [(Table.historyT, ids), (Table.functionFinishesT, ids), (Table.functionRunsT, ids)]

/-! ### Claim C4 -/

/-- C4 (counterexample): the claim says History and Finish rows are always
deleted before the corresponding Run rows.  In `cleanup_function_data` of
cleanupv2.py (a cited source of the claim), for a database with one
completed run (run 1, finish at time 5, cutoff 10) the transaction
delete sequence targets `function_runs` FIRST and `history` LAST. -/
theorem c4_false_on_cleanupv2 :
    (cleanupv2FunctionDeleteStmts
        ⟨[], [⟨1, 0, none, none⟩], [⟨1, 5⟩], [⟨9, 1, none, 3⟩], [], [], []⟩
        10 100).map Prod.fst =
      [Table.functionRunsT, Table.functionFinishesT, Table.historyT] := by decide

/-- C4 (amended): in `clean_function_data` of the v3 cleaner every
non-empty batch delete sequence runs History, then Finish, then Run (so
dependents go first), and in `cleanup_trace_data` of cleanupv2 Trace rows
are deleted before TraceRun rows; but `cleanup_function_data` of cleanupv2
deletes the parent `function_runs` rows first. -/
theorem c4_dependents_first_v3_and_traces (db : Env) (client : Option RedisOracle)
    (cutoff extCutoff batchSize cutoff2 batchSize2 : Nat) :
    (v3FunctionDeleteStmts db client cutoff extCutoff batchSize = [] ∨
      ∃ ids, v3FunctionDeleteStmts db client cutoff extCutoff batchSize =
        [(Table.historyT, ids), (Table.functionFinishesT, ids), (Table.functionRunsT, ids)]) ∧
    (cleanupv2TraceDeleteStmts db cutoff2 batchSize2 = [] ∨
      ∃ ids, cleanupv2TraceDeleteStmts db cutoff2 batchSize2 =
        [(Table.tracesT, ids), (Table.traceRunsT, ids)]) := by
  constructor
  · unfold v3FunctionDeleteStmts
    by_cases h : (getFunctionRunsToDeleteV3 db client cutoff extCutoff batchSize).isEmpty
    · left; simp [h]
    · right
      exact ⟨getFunctionRunsToDeleteV3 db client cutoff extCutoff batchSize, by simp [h]⟩
  · unfold cleanupv2TraceDeleteStmts
    by_cases h : (cleanupv2TraceSelection db cutoff2 batchSize2).isEmpty
    · left; simp [h]
    · right
      exact ⟨cleanupv2TraceSelection db cutoff2 batchSize2, by simp [h]⟩

/-! ### Event cleanup (src/cleanup_events.py, src/cleanup_events_v1.py,
src/v2/cleanup_inngest_env.py) -/

/-- Source: `EXISTS (SELECT 1 FROM function_runs fr WHERE fr.event_id =
e.internal_id)`. -/
def eventReferencedByRun (db : Env) (eid : Nat) : Bool :=
  db.functionRuns.any (fun fr => fr.eventId == some eid)

/-- Source: `EXISTS (SELECT 1 FROM event_batches eb WHERE position(encode(
e.internal_id, ...) in encode(eb.event_ids, ...)) > 0)`: the event id
occurs inside the packed `event_ids` of some batch (modelled as membership in
the id list; a contained id always yields a positive `position`). -/
def eventInSomeBatch (db : Env) (eid : Nat) : Bool :=
  db.eventBatches.any (fun b => b.eventIds.contains eid)

/-- WHERE clause of the events delete in cleanup_events.py (lines 265-285)
and cleanup_events_v1.py (lines 491-507): older than the cutoff, not
referenced by any `function_runs` row, not inside any `event_batches` row.
The `history` table is not consulted. -/
def eventDeletable (db : Env) (cutoff : Nat) (e : EventRow) : Bool :=
  e.receivedAt < cutoff && !(eventReferencedByRun db e.internalId) &&
    !(eventInSomeBatch db e.internalId)

/-- One delete batch of `EventCleaner.cleanup` in cleanup_events.py
(lines 265-285): delete up to `batch_size` deletable events.  The SQL
lets the engine pick the batch (`internal_id IN (SELECT ... LIMIT)` with
no ORDER BY); the model picks the oldest candidates, one legal choice,
which does not affect the properties proved about it.  Returns the new
state and the count. -/
def cleanupEventsBatch (db : Env) (cutoff batchSize : Nat) : Env × Nat :=
  let victims :=
    (((db.events.filter (eventDeletable db cutoff)
        |> sortByKey (fun e => e.receivedAt)).take batchSize).map (fun e => e.internalId))
  ({ db with events := db.events.filter (fun e => !(victims.contains e.internalId)) },
    victims.length)

/-- The batch loop of `EventCleaner.cleanup` (cleanup_events.py lines
243-306): repeat until a batch deletes nothing; fuel bounds the number of
iterations.  Returns the final state and the total deleted. -/
def cleanupEventsLoop (cutoff batchSize : Nat) : Nat → Env → Env × Nat
  | 0, db => (db, 0)
  | fuel + 1, db =>
    let step := cleanupEventsBatch db cutoff batchSize
    if step.2 = 0 then (step.1, 0)
    else
      let rest := cleanupEventsLoop cutoff batchSize fuel step.1
      (rest.1, step.2 + rest.2)

/-- Source: `get_referenced_event_ids` (v2 lines 238-279; identical in v3 lines
555-596): event ids carried by `function_runs` rows with `run_started_at
>= cutoff` or `history` rows with `created_at >= cutoff` — references
older than the cutoff are NOT collected. -/
def getReferencedEventIdsV2 (db : Env) (cutoff : Nat) : List Nat :=
  (db.functionRuns.filterMap
      (fun fr => if cutoff ≤ fr.runStartedAt then fr.eventId else none)) ++
    (db.history.filterMap
      (fun h => if cutoff ≤ h.createdAt then h.eventId else none))

/-- Source: `clean_events` (v2 lines 406-494): dry-run returns 0 immediately;
otherwise delete events older than the cutoff whose id is not in the
referenced set and which are among the first `batch_size` old events. -/
def cleanEventsV2 (db : Env) (dryRun : Bool) (cutoff batchSize : Nat) : Env × Nat :=
  if dryRun then (db, 0) else
  let referenced := getReferencedEventIdsV2 db cutoff
  let oldIds :=
    ((db.events.filter (fun e => e.receivedAt < cutoff)).map
      (fun e => e.internalId)).take batchSize
  let keeps := db.events.filter (fun e =>
    !(e.receivedAt < cutoff && !(referenced.contains e.internalId) &&
      oldIds.contains e.internalId))
  ({ db with events := keeps }, db.events.length - keeps.length)

/-! ### Claim C2 -/

/-- C2 (counterexample): the claim says an Event referenced by a Run,
History entry, or non-empty Batch is never deleted, regardless of the
age of the referencing record.  Two cited cleaners violate it: v2
`clean_events` deletes event 1 although run 5 references it (the run
started before the cutoff, so the referenced-ids query misses it), and
the events delete of cleanup_events.py deletes event 1 although a
History row references it (History is not consulted there). -/
theorem c2_false_on_v2_and_history :
    (eventReferencedByRun ⟨[⟨1, 0⟩], [⟨5, 0, some 1, none⟩], [], [], [], [], []⟩ 1 = true ∧
      (cleanEventsV2 ⟨[⟨1, 0⟩], [⟨5, 0, some 1, none⟩], [], [], [], [], []⟩
          false 10 5).1.events = []) ∧
    ((⟨[⟨1, 0⟩], [], [], [⟨4, 9, some 1, 50⟩], [], [], []⟩ : Env).history.any
        (fun h => h.eventId == some 1) = true ∧
      (cleanupEventsBatch ⟨[⟨1, 0⟩], [], [], [⟨4, 9, some 1, 50⟩], [], [], []⟩
          10 5).1.events = []) := by decide

theorem cleanupEventsBatch_keeps_referenced (db : Env) (cutoff batchSize : Nat)
    (e : EventRow) (he : e ∈ db.events)
    (href : eventReferencedByRun db e.internalId = true ∨
      eventInSomeBatch db e.internalId = true) :
    e ∈ (cleanupEventsBatch db cutoff batchSize).1.events := by
  unfold cleanupEventsBatch
  apply List.mem_filter.mpr
  refine ⟨he, ?_⟩
  simp only [Bool.not_eq_true']
  by_contra hc
  rw [Bool.not_eq_false] at hc
  have hmem := List.mem_of_elem_eq_true hc
  rcases List.mem_map.mp hmem with ⟨e', he', hid⟩
  have he'2 := List.take_subset _ _ he'
  rw [mem_sortByKey] at he'2
  have hpred := List.of_mem_filter he'2
  unfold eventDeletable at hpred
  simp only [Bool.and_eq_true, Bool.not_eq_true'] at hpred
  rw [hid] at hpred
  rcases href with h | h
  · rw [h] at hpred; simp at hpred
  · rw [h] at hpred; simp at hpred

theorem cleanupEventsBatch_fixes_refs (db : Env) (cutoff batchSize : Nat) :
    (cleanupEventsBatch db cutoff batchSize).1.functionRuns = db.functionRuns ∧
    (cleanupEventsBatch db cutoff batchSize).1.eventBatches = db.eventBatches := by
  unfold cleanupEventsBatch
  exact ⟨rfl, rfl⟩

/-- C2 (amended): in the events cleaners of cleanup_events.py and
cleanup_events_v1.py, an Event referenced by at least one Run or contained
in the `event_ids` of any Batch is never deleted by the cleanup loop, however
old the referencing record is; History references do not protect an Event
there, and in `clean_events` of v2/v3 only references with timestamps at or
after the cutoff protect it. -/
theorem c2_run_or_batch_referenced_event_survives (db : Env)
    (cutoff batchSize fuel : Nat) (e : EventRow) (he : e ∈ db.events)
    (href : eventReferencedByRun db e.internalId = true ∨
      eventInSomeBatch db e.internalId = true) :
    e ∈ (cleanupEventsLoop cutoff batchSize fuel db).1.events := by
  induction fuel generalizing db with
  | zero => exact he
  | succ n ih =>
    unfold cleanupEventsLoop
    have hkeep := cleanupEventsBatch_keeps_referenced db cutoff batchSize e he href
    have hfix := cleanupEventsBatch_fixes_refs db cutoff batchSize
    have href' : eventReferencedByRun (cleanupEventsBatch db cutoff batchSize).1
        e.internalId = true ∨
        eventInSomeBatch (cleanupEventsBatch db cutoff batchSize).1 e.internalId = true := by
      unfold eventReferencedByRun eventInSomeBatch
      rw [hfix.1, hfix.2]
      exact href
    by_cases hz : (cleanupEventsBatch db cutoff batchSize).2 = 0
    · simp only [hz, if_pos rfl]
      exact hkeep
    · simp only [hz, if_neg hz]
      exact ih _ hkeep href'

/-- C2 (witness): event 1 (received at 0) referenced by run 5 survives the
full cleanup loop with cutoff 10 even though it is older than the cutoff. -/
theorem c2_run_or_batch_referenced_event_survives_witness :
    (⟨1, 0⟩ : EventRow) ∈ (cleanupEventsLoop 10 5 3
        ⟨[⟨1, 0⟩], [⟨5, 0, some 1, none⟩], [], [], [], [], []⟩).1.events :=
  c2_run_or_batch_referenced_event_survives
    ⟨[⟨1, 0⟩], [⟨5, 0, some 1, none⟩], [], [], [], [], []⟩ 10 5 3 ⟨1, 0⟩
    (by decide) (Or.inl (by decide))

/-! ### v2 clean_function_data with error injection
(src/v2/cleanup_inngest_env.py) -/

/-- Source: `get_function_runs_to_delete` (v2 lines 81-154): UNION of completed-run
ids (finish older than cutoff, no blocking child) and ids of runs started
before the double cutoff (no finish requirement, no liveness check),
DISTINCT, `ORDER BY run_id`, `LIMIT batch_size`. -/
def getFunctionRunsToDeleteV2 (db : Env) (cutoff extCutoff batchSize : Nat) : List Nat :=
  let completed :=
    (db.functionFinishes.filter
        (fun ff => ff.createdAt < cutoff && !(childBlocksFinish db cutoff ff.runId))).map
      (fun f => f.runId)
  let stuck :=
    (db.functionRuns.filter (fun fr => fr.runStartedAt < extCutoff)).map (fun r => r.runId)
  ((completed ++ stuck).dedup |> sortByKey (fun x => x)).take batchSize

/-- Orphaned-history query (v2 lines 156-195): history rows older than the
cutoff whose run no longer exists; `LIMIT batch_size`. -/
def getOrphanedHistoryIds (db : Env) (cutoff batchSize : Nat) : List Nat :=
  ((db.history.filter (fun h => h.createdAt < cutoff &&
      !(db.functionRuns.any (fun fr => fr.runId == h.runId)))).map (fun h => h.hid)).take
    batchSize

/-- Orphaned-finishes query (v2 lines 197-236). -/
def getOrphanedFinishRunIds (db : Env) (cutoff batchSize : Nat) : List Nat :=
  ((db.functionFinishes.filter (fun ff => ff.createdAt < cutoff &&
      !(db.functionRuns.any (fun fr => fr.runId == ff.runId)))).map (fun f => f.runId)).take
    batchSize

/-- The DELETE statements `clean_function_data` can issue; used to inject
a raise into a chosen statement. -/
inductive Stmt
  | delHistoryBatch | delFinishesBatch | delRunsBatch | delOrphHistory | delOrphFinishes
  deriving DecidableEq, Repr

/-- The stats dictionary of `clean_function_data`. -/
structure FnStats where
  functionRuns : Nat
  functionFinishes : Nat
  history : Nat
  orphanedHistory : Nat
  orphanedFinishes : Nat
  deriving DecidableEq, Repr

/-- All-zero stats, as initialised at v2 lines 283-289. -/
def FnStats.zero : FnStats := ⟨0, 0, 0, 0, 0⟩

/-- Result of `clean_function_data`: final database, returned stats, and
whether an exception escaped the function. -/
structure CleanFnResult where
  env : Env
  stats : FnStats
  propagated : Bool
  deriving DecidableEq, Repr

/-- Source: `ImprovedInngestCleaner.clean_function_data` (v2 lines 281-404) with
an error-injection oracle `fails` choosing which DELETE statements raise.
Dry-run returns zero stats immediately.  The run-batch block deletes
history, then finishes, then runs in one transaction: on a raise the
transaction is rolled back (the committed state is the input of the function),
the error is logged and the function returns the stats recorded so far
(v2 lines 346-350) — rowcounts of statements executed before the raise
stay in the stats even though their deletes were rolled back.  The two
orphan blocks are separate transactions whose errors are also caught. -/
def cleanFunctionDataV2 (db : Env) (dryRun : Bool) (fails : Stmt → Bool)
    (cutoff extCutoff batchSize : Nat) : CleanFnResult :=
  if dryRun then ⟨db, FnStats.zero, false⟩ else
  let ids := getFunctionRunsToDeleteV2 db cutoff extCutoff batchSize
  let batchBlock : Env × FnStats × Bool :=
    if ids.isEmpty then (db, FnStats.zero, false)
    else if fails Stmt.delHistoryBatch then (db, FnStats.zero, true)
    else
      let ch := (db.history.filter (fun h => ids.contains h.runId)).length
      if fails Stmt.delFinishesBatch then (db, { FnStats.zero with history := ch }, true)
      else
        let cf := (db.functionFinishes.filter (fun f => ids.contains f.runId)).length
        if fails Stmt.delRunsBatch then
          (db, { FnStats.zero with history := ch, functionFinishes := cf }, true)
        else
          let cr := (db.functionRuns.filter (fun r => ids.contains r.runId)).length
          ({ db with
              history := db.history.filter (fun h => !(ids.contains h.runId)),
              functionFinishes :=
                db.functionFinishes.filter (fun f => !(ids.contains f.runId)),
              functionRuns := db.functionRuns.filter (fun r => !(ids.contains r.runId)) },
            { FnStats.zero with history := ch, functionFinishes := cf, functionRuns := cr },
            false)
  if batchBlock.2.2 then ⟨batchBlock.1, batchBlock.2.1, false⟩
  else
    let db1 := batchBlock.1
    let st1 := batchBlock.2.1
    let hids := getOrphanedHistoryIds db1 cutoff batchSize
    let block2 : Env × Nat :=
      if hids.isEmpty then (db1, 0)
      else if fails Stmt.delOrphHistory then (db1, 0)
      else ({ db1 with history := db1.history.filter (fun h => !(hids.contains h.hid)) },
        (db1.history.filter (fun h => hids.contains h.hid)).length)
    let db2 := block2.1
    let fids := getOrphanedFinishRunIds db2 cutoff batchSize
    let block3 : Env × Nat :=
      if fids.isEmpty then (db2, 0)
      else if fails Stmt.delOrphFinishes then (db2, 0)
      else ({ db2 with functionFinishes :=
          db2.functionFinishes.filter (fun f => !(fids.contains f.runId)) },
        (db2.functionFinishes.filter (fun f => fids.contains f.runId)).length)
    ⟨block3.1, { st1 with orphanedHistory := block2.2, orphanedFinishes := block3.2 }, false⟩

/-! ### Claim C5 -/

/-- C5 (counterexample): the claim says that on a database error during a
batch delete, zero rows are reported and the error propagates.  In the v2
`clean_function_data`, with one eligible completed run (run 1) and the
`function_runs` DELETE raising, the transaction is rolled back yet the
returned stats report 1 history row and 1 finish row deleted, and no
error escapes the function. -/
theorem c5_false_on_v2 :
    (cleanFunctionDataV2 ⟨[], [⟨1, 0, none, none⟩], [⟨1, 5⟩], [⟨7, 1, none, 3⟩], [], [], []⟩
        false (fun s => s == Stmt.delRunsBatch) 10 0 100).stats.history = 1 ∧
    (cleanFunctionDataV2 ⟨[], [⟨1, 0, none, none⟩], [⟨1, 5⟩], [⟨7, 1, none, 3⟩], [], [], []⟩
        false (fun s => s == Stmt.delRunsBatch) 10 0 100).stats.functionFinishes = 1 ∧
    (cleanFunctionDataV2 ⟨[], [⟨1, 0, none, none⟩], [⟨1, 5⟩], [⟨7, 1, none, 3⟩], [], [], []⟩
        false (fun s => s == Stmt.delRunsBatch) 10 0 100).propagated = false := by decide

/-- C5 (amended): on a database error in the run-batch block of the v2
`clean_function_data` the transaction is rolled back, so the committed
database state equals the input; but the error is swallowed (never
propagated to any caller), and the returned stats keep the rowcounts of
the statements executed before the raise, which can be nonzero. -/
theorem c5_rollback_but_swallowed (db : Env) (fails : Stmt → Bool)
    (cutoff extCutoff batchSize : Nat)
    (hne : (getFunctionRunsToDeleteV2 db cutoff extCutoff batchSize).isEmpty = false)
    (hf : fails Stmt.delHistoryBatch = true ∨ fails Stmt.delFinishesBatch = true ∨
      fails Stmt.delRunsBatch = true) :
    (cleanFunctionDataV2 db false fails cutoff extCutoff batchSize).env = db ∧
    (cleanFunctionDataV2 db false fails cutoff extCutoff batchSize).propagated = false := by
  by_cases h1 : fails Stmt.delHistoryBatch
  · constructor <;> simp [cleanFunctionDataV2, hne, h1]
  · by_cases h2 : fails Stmt.delFinishesBatch
    · constructor <;> simp [cleanFunctionDataV2, hne, h1, h2]
    · by_cases h3 : fails Stmt.delRunsBatch
      · constructor <;> simp [cleanFunctionDataV2, hne, h1, h2, h3]
      · rcases hf with h | h | h
        · exact absurd h h1
        · exact absurd h h2
        · exact absurd h h3

/-- C5 (witness): the amended theorem applied to the counterexample
database with the `function_runs` DELETE raising: the state is unchanged
and nothing propagates. -/
theorem c5_rollback_but_swallowed_witness :
    (cleanFunctionDataV2 ⟨[], [⟨1, 0, none, none⟩], [⟨1, 5⟩], [⟨7, 1, none, 3⟩], [], [], []⟩
        false (fun s => s == Stmt.delRunsBatch) 10 0 100).env =
      ⟨[], [⟨1, 0, none, none⟩], [⟨1, 5⟩], [⟨7, 1, none, 3⟩], [], [], []⟩ ∧
    (cleanFunctionDataV2 ⟨[], [⟨1, 0, none, none⟩], [⟨1, 5⟩], [⟨7, 1, none, 3⟩], [], [], []⟩
        false (fun s => s == Stmt.delRunsBatch) 10 0 100).propagated = false :=
  c5_rollback_but_swallowed
    ⟨[], [⟨1, 0, none, none⟩], [⟨1, 5⟩], [⟨7, 1, none, 3⟩], [], [], []⟩
    (fun s => s == Stmt.delRunsBatch) 10 0 100 (by decide) (Or.inr (Or.inr (by decide)))

/-! ### Claim C7 -/

/-- The `created_at` of the (first) finish row of a given run id, used to
read back the relevant timestamp of a selected candidate. -/
def finishCreatedAt (db : Env) (rid : Nat) : Nat :=
  ((db.functionFinishes.filter (fun f => f.runId == rid)).headD ⟨0, 0⟩).createdAt

/-- C7 (counterexample): the claim says every Batch Selector returns
candidates ascending by the relevant timestamp (oldest first).  The v3
completed-runs selector orders by `run_id` instead: with finishes
(run 2, created 10) and (run 1, created 20) it returns [1, 2], whose
timestamps [20, 10] are not ascending — the oldest record is second. -/
theorem c7_false_on_v3_order :
    completedRunsV3 ⟨[], [], [⟨2, 10⟩, ⟨1, 20⟩], [], [], [], []⟩ 100 10 = [1, 2] ∧
    (completedRunsV3 ⟨[], [], [⟨2, 10⟩, ⟨1, 20⟩], [], [], [], []⟩ 100 10).map
        (finishCreatedAt ⟨[], [], [⟨2, 10⟩, ⟨1, 20⟩], [], [], [], []⟩) = [20, 10] ∧
    ascendingBy (fun t => t)
        ((completedRunsV3 ⟨[], [], [⟨2, 10⟩, ⟨1, 20⟩], [], [], [], []⟩ 100 10).map
          (finishCreatedAt ⟨[], [], [⟨2, 10⟩, ⟨1, 20⟩], [], [], [], []⟩)) = false := by
  decide

/-- C7 (amended): the cleanupv2.py selectors do return candidates
ascending by the relevant timestamp — `cleanup_function_data` by the
finish `created_at` and `cleanup_trace_data` by `ended_at`; the v3
selectors (`ORDER BY run_id`, and no ordering for traces) do not
guarantee timestamp order. -/
theorem c7_cleanupv2_selections_ascending (db : Env) (cutoff batchSize : Nat) :
    ascendingBy (fun f => f.createdAt)
        (cleanupv2FunctionRunSelectionRows db cutoff batchSize) = true ∧
    ascendingBy (fun t => t.endedAt.getD 0)
        (cleanupv2TraceSelectionRows db cutoff batchSize) = true := by
  constructor
  · exact ascendingBy_take _ _ _ (ascendingBy_sortByKey _ _)
  · exact ascendingBy_take _ _ _ (ascendingBy_sortByKey _ _)

/-! ### Retry wrapper (src/cleanup_events.py lines 124-152,
src/cleanup_events_v1.py lines 127-154) -/

/-- Exception classes relevant to `db_retry`.  The first four are
subclasses of `psycopg2.Error` (the connection and operational errors the
spec calls transient, but also constraint violations and SQL programming
errors); `typeErr` stands for a Python-level error such as `TypeError`,
which is not a `psycopg2.Error`. -/
inductive PyExc
  | connectionErr | operationalErr | integrityErr | programmingErr | typeErr
  deriving DecidableEq, Repr

/-- The `except psycopg2.Error` clause matches exactly these classes. -/
def isPsycopg2Error : PyExc → Bool
  | .typeErr => false
  | _ => true

/-- The retry loop of `db_retry` around an operation whose outcome on the
i-th attempt is `op i`.  `attempt` is the 0-based index of the current
attempt; the Python `retries` counter after a failure equals
`attempt + 1`.  A `psycopg2.Error` is caught: when `retries >=
max_retries` it is re-raised, otherwise the wrapper sleeps, reconnects
and retries; any other exception is not caught and propagates at once.
`fuel` bounds the recursion; `db_retry` below supplies `maxRetries`
fuel, which the loop can never exhaust (and the fuel-0 fallback returns
the outcome of the current attempt, which coincides with the `max_retries = 0`
behaviour).  Returns the final outcome and the number of attempts made. -/
def dbRetryGo (maxRetries : Nat) (op : Nat → Except PyExc α) :
    Nat → Nat → Except PyExc α × Nat
  | attempt, 0 => (op attempt, attempt + 1)
  | attempt, fuel + 1 =>
    match op attempt with
    | .ok v => (.ok v, attempt + 1)
    | .error e =>
      if isPsycopg2Error e then
        if maxRetries ≤ attempt + 1 then (.error e, attempt + 1)
        else dbRetryGo maxRetries op (attempt + 1) fuel
      else (.error e, attempt + 1)

/-- Source: `EventCleaner.db_retry` with the configured `max_retries`. -/
def db_retry (maxRetries : Nat) (op : Nat → Except PyExc α) : Except PyExc α × Nat :=
  dbRetryGo maxRetries op 0 maxRetries

/-! ### Claim C8 -/

/-- C8 (counterexample): the claim says constraint violations and
programming errors propagate immediately without any retry.  `db_retry`
catches every `psycopg2.Error`: an operation that always raises a
constraint violation (IntegrityError) is attempted 3 times under the
default `max_retries = 3` before the error is re-raised, and likewise a
programming error. -/
theorem c8_false_constraint_errors_retried :
    db_retry 3 (fun _ => (.error PyExc.integrityErr : Except PyExc Unit)) =
      (.error PyExc.integrityErr, 3) ∧
    db_retry 3 (fun _ => (.error PyExc.programmingErr : Except PyExc Unit)) =
      (.error PyExc.programmingErr, 3) ∧ (3 : Nat) ≠ 1 := ⟨rfl, rfl, by decide⟩

theorem dbRetryGo_all_fail (maxRetries : Nat) (op : Nat → Except PyExc α)
    (elast : PyExc)
    (hall : ∀ i, i < maxRetries → ∃ e, op i = .error e ∧ isPsycopg2Error e = true)
    (hlast : op (maxRetries - 1) = .error elast) :
    ∀ fuel attempt, attempt < maxRetries → maxRetries - attempt ≤ fuel →
      dbRetryGo maxRetries op attempt fuel = (.error elast, maxRetries) := by
  intro fuel
  induction fuel with
  | zero => intro attempt h1 h2; omega
  | succ f ih =>
    intro attempt h1 h2
    rcases hall attempt h1 with ⟨e, hop, hpsy⟩
    unfold dbRetryGo
    rw [hop]
    simp only [hpsy, if_true]
    by_cases hstop : maxRetries ≤ attempt + 1
    · have : attempt = maxRetries - 1 := by omega
      rw [this] at hop
      rw [hlast] at hop
      have he : elast = e := by injection hop
      subst he
      simp only [if_pos hstop]
      have : attempt + 1 = maxRetries := by omega
      rw [this]
    · simp only [if_neg hstop]
      exact ih (attempt + 1) (by omega) (by omega)

/-- C8 (amended): `db_retry` retries every `psycopg2.Error` — including
constraint violations and programming errors — reconnecting between
attempts, and raises the last error after `max_retries` failed attempts,
with the whole wrapped operation failed (no partial result); a successful
attempt returns immediately; only non-database exceptions (e.g. a Python
`TypeError`) propagate immediately without any retry. -/
theorem c8_retry_classification (maxRetries : Nat) (op : Nat → Except PyExc α)
    (v : α) (e : PyExc) (elast : PyExc) :
    (op 0 = .ok v → db_retry maxRetries op = (.ok v, 1)) ∧
    (op 0 = .error e → isPsycopg2Error e = false →
      db_retry maxRetries op = (.error e, 1)) ∧
    ((∀ i, i < maxRetries → ∃ e', op i = .error e' ∧ isPsycopg2Error e' = true) →
      op (maxRetries - 1) = .error elast → 1 ≤ maxRetries →
      db_retry maxRetries op = (.error elast, maxRetries)) := by
  refine ⟨?_, ?_, ?_⟩
  · intro hok
    unfold db_retry
    cases maxRetries with
    | zero => unfold dbRetryGo; rw [hok]
    | succ m => unfold dbRetryGo; rw [hok]
  · intro herr hnon
    unfold db_retry
    cases maxRetries with
    | zero => unfold dbRetryGo; rw [herr]
    | succ m =>
      unfold dbRetryGo
      rw [herr]
      simp [hnon]
  · intro hall hlast hpos
    exact dbRetryGo_all_fail maxRetries op elast hall hlast maxRetries 0 (by omega)
      (by omega)

/-- C8 (witness): the amended theorem at `max_retries = 2` with an
operation that always raises a connection error: two attempts, then the
last error is raised; and a `TypeError` on attempt 0 propagates after a
single attempt. -/
theorem c8_retry_classification_witness :
    db_retry 2 (fun _ => (.error PyExc.connectionErr : Except PyExc Unit)) =
      (.error PyExc.connectionErr, 2) ∧
    db_retry 2 (fun _ => (.error PyExc.typeErr : Except PyExc Unit)) =
      (.error PyExc.typeErr, 1) := by
  constructor
  · exact (c8_retry_classification 2 (fun _ => (.error PyExc.connectionErr : Except PyExc Unit))
      () PyExc.typeErr PyExc.connectionErr).2.2
      (fun i _ => ⟨PyExc.connectionErr, rfl, rfl⟩) rfl (by omega)
  · exact (c8_retry_classification 2 (fun _ => (.error PyExc.typeErr : Except PyExc Unit))
      () PyExc.typeErr PyExc.typeErr).2.1 rfl rfl

/-! ### v1 run cleanup (src/cleanup_events_v1.py, cleanup_function_runs) -/

/-- Non-dry-run batch of `EventCleaner.cleanup_function_runs`
(cleanup_events_v1.py lines 765-777), executed through `db_retry` against
PostgreSQL.  The statement places `ORDER BY run_started_at LIMIT %s`
directly inside `DELETE FROM function_runs`, which PostgreSQL rejects:
every attempt raises a ProgrammingError (a `psycopg2.Error`), `db_retry`
retries it up to `max_retries` attempts and re-raises, and no
`function_runs` row is ever deleted.  Returns the unchanged database and
the `db_retry` outcome (final error plus attempt count). -/
def cleanupFunctionRunsV1Batch (db : Env) (maxRetries : Nat) :
    Env × Except PyExc Nat × Nat :=
  (db, db_retry maxRetries (fun _ => .error PyExc.programmingErr))

/-! ### Claim C1 -/

/-- C1 (counterexample): the claim says a finish-less Run older than the
extended cutoff is deleted only if the Liveness Oracle reports no
external liveness for its run identifier.  The v2 cleaner (a cited source
of the claim) consults no liveness store at all: run 1 has no Finish and
started at time 0, older than the extended cutoff 5; the external store
reports it live (`check_run_active_in_redis` returns `true`), yet the v2
`clean_function_data` selects and deletes it. -/
theorem c1_false_on_v2_liveness_ignored :
    hasFinish ⟨[], [⟨1, 0, none, none⟩], [], [], [], [], []⟩ 1 = false ∧
    0 < 5 ∧
    check_run_active_in_redis
        (some ⟨fun _ => .ok true, fun _ => .ok false, fun _ => .ok false,
          fun _ => .ok [], fun _ => .ok false⟩) 1 = true ∧
    (cleanFunctionDataV2 ⟨[], [⟨1, 0, none, none⟩], [], [], [], [], []⟩
        false (fun _ => false) 10 5 100).env.functionRuns = [] := by decide

/-- C1 (amended): a Run with no Finish that is not older than the
extended cutoff is never selected or deleted by any of the cited
cleaners: the v3 selector omits it and it survives the v3
`clean_function_data`, the v2 selector omits it as well, and the v1
`cleanup_function_runs` delete is invalid PostgreSQL, so it raises
through `db_retry` and never deletes any run at all.  Whenever the v3
cleaner selects a finish-less Run, both Redis liveness checks reported no
liveness for its run identifier; the v2 cleaner, however, deletes
finish-less Runs older than the extended cutoff without consulting any
liveness oracle. -/
theorem c1_v3_incomplete_run_safety
    (db : Env) (client : Option RedisOracle)
    (cutoff extCutoff batchSize maxRetries : Nat) (r : RunRow)
    (hr : r ∈ db.functionRuns)
    (hpk : ∀ r' ∈ db.functionRuns, r'.runId = r.runId → r' = r)
    (hnf : hasFinish db r.runId = false) :
    (extCutoff ≤ r.runStartedAt →
      r.runId ∉ getFunctionRunsToDeleteV3 db client cutoff extCutoff batchSize ∧
      r ∈ (cleanFunctionDataV3 db client false cutoff extCutoff batchSize).functionRuns ∧
      r.runId ∉ getFunctionRunsToDeleteV2 db cutoff extCutoff batchSize) ∧
    (r.runId ∈ getFunctionRunsToDeleteV3 db client cutoff extCutoff batchSize →
      check_run_active_in_redis client r.runId = false ∧
      check_run_has_active_pauses client r.runId = false) ∧
    (cleanupFunctionRunsV1Batch db maxRetries).1 = db ∧
    (cleanupFunctionRunsV1Batch db maxRetries).2.1 = .error PyExc.programmingErr := by
  have hcomp : r.runId ∉ completedRunsV3 db cutoff batchSize := by
    intro hmem
    have := mem_completedRunsV3_hasFinish db cutoff batchSize r.runId hmem
    rw [hnf] at this
    exact Bool.false_ne_true this
  have hv1err : (cleanupFunctionRunsV1Batch db maxRetries).2.1 =
      .error PyExc.programmingErr := by
    cases maxRetries with
    | zero => rfl
    | succ m =>
      have hrun := dbRetryGo_all_fail (m + 1)
        (fun _ => (.error PyExc.programmingErr : Except PyExc Nat))
        PyExc.programmingErr (fun i _ => ⟨PyExc.programmingErr, rfl, rfl⟩) rfl
        (m + 1) 0 (by omega) (by omega)
      show (dbRetryGo (m + 1) (fun _ => (.error PyExc.programmingErr : Except PyExc Nat))
        0 (m + 1)).1 = _
      rw [hrun]
  refine ⟨?_, ?_, rfl, hv1err⟩
  · intro hext
    have hnotin3 : r.runId ∉ getFunctionRunsToDeleteV3 db client cutoff extCutoff batchSize := by
      intro hmem
      unfold getFunctionRunsToDeleteV3 at hmem
      rcases List.mem_append.mp hmem with hin | hin
      · exact hcomp hin
      · unfold filterSafeIncomplete at hin
        have hin2 := List.mem_of_mem_filter hin
        have hin3 : r.runId ∈ incompleteRunsV3 db extCutoff
            (batchSize - (completedRunsV3 db cutoff batchSize).length) := by
          by_cases hlt : (completedRunsV3 db cutoff batchSize).length < batchSize
          · simpa [hlt] using hin2
          · simp [hlt] at hin2
        rcases mem_incompleteRunsV3_started db extCutoff _ r.runId hin3 with
          ⟨r', hr', hid, hstart, _⟩
        have := hpk r' hr' hid
        subst this
        omega
    have hnotin2 : r.runId ∉ getFunctionRunsToDeleteV2 db cutoff extCutoff batchSize := by
      intro hmem
      simp only [getFunctionRunsToDeleteV2] at hmem
      have h1 := List.take_subset _ _ hmem
      rw [mem_sortByKey] at h1
      rw [List.mem_dedup] at h1
      rcases List.mem_append.mp h1 with hin | hin
      · rcases List.mem_map.mp hin with ⟨ff, hff, hid⟩
        have hmem2 := List.mem_of_mem_filter hff
        have hfin : hasFinish db r.runId = true := by
          unfold hasFinish
          rw [List.any_eq_true]
          exact ⟨ff, hmem2, by simp [hid]⟩
        rw [hnf] at hfin
        exact Bool.false_ne_true hfin
      · rcases List.mem_map.mp hin with ⟨r', hr', hid⟩
        have hmem2 := List.mem_of_mem_filter hr'
        have hpred := List.of_mem_filter hr'
        simp only [decide_eq_true_eq] at hpred
        have heq := hpk r' hmem2 hid
        subst heq
        omega
    refine ⟨hnotin3, ?_, hnotin2⟩
    unfold cleanFunctionDataV3
    simp only [if_neg (Bool.false_ne_true ∘ absurd rfl ∘ fun h => h)]
    by_cases hemp : (getFunctionRunsToDeleteV3 db client cutoff extCutoff batchSize).isEmpty
    · simp only [hemp, if_pos rfl, if_true]
      exact hr
    · simp only [hemp]
      rw [if_neg (by simp [hemp])]
      apply List.mem_filter.mpr
      refine ⟨hr, ?_⟩
      simp only [Bool.not_eq_true']
      by_contra hc
      rw [Bool.not_eq_false] at hc
      exact hnotin3 (List.mem_of_elem_eq_true hc)
  · intro hmem
    unfold getFunctionRunsToDeleteV3 at hmem
    rcases List.mem_append.mp hmem with hin | hin
    · exact absurd hin hcomp
    · have hpred := List.of_mem_filter hin
      simp only [Bool.not_eq_true', Bool.or_eq_false_iff] at hpred
      exact hpred

/-- C1 (witness): the amended theorem applied to a database with one
finish-less run (id 1, started at 50), extended cutoff 40, standard
cutoff 100: the run is selected by neither the v3 nor the v2 selector
and survives the v3 deletion. -/
theorem c1_v3_incomplete_run_safety_witness :
    (1 : Nat) ∉ getFunctionRunsToDeleteV3
        ⟨[], [⟨1, 50, none, none⟩], [], [], [], [], []⟩ none 100 40 10 ∧
    (⟨1, 50, none, none⟩ : RunRow) ∈ (cleanFunctionDataV3
        ⟨[], [⟨1, 50, none, none⟩], [], [], [], [], []⟩ none false 100 40 10).functionRuns ∧
    (1 : Nat) ∉ getFunctionRunsToDeleteV2
        ⟨[], [⟨1, 50, none, none⟩], [], [], [], [], []⟩ 100 40 10 :=
  (c1_v3_incomplete_run_safety
      ⟨[], [⟨1, 50, none, none⟩], [], [], [], [], []⟩ none 100 40 10 3
      ⟨1, 50, none, none⟩ (by decide) (by decide) (by decide)).1 (by decide)

/-! ### Dry run (src/cleanup_events.py lines 246-303,
src/cleanup_events_v1.py lines 432-535,
src/v2/cleanup_inngest_env.py lines 291-293) -/

/-- Dry-run candidate query of `EventCleaner.cleanup` in
cleanup_events_v1.py (lines 445-478): the same predicate as the delete,
excluding already-processed ids, `ORDER BY received_at`,
`LIMIT batch_size`; returns the selected internal ids. -/
def cleanupEventsDryBatchV1 (db : Env) (processed : List Nat)
    (cutoff batchSize : Nat) : List Nat :=
  (((db.events.filter
        (fun e => eventDeletable db cutoff e && !(processed.contains e.internalId))
      |> sortByKey (fun e => e.receivedAt)).take batchSize).map (fun e => e.internalId))

/-- Dry-run candidate count of `EventCleaner.cleanup` in cleanup_events.py
(lines 246-263): `WITH candidate_events AS (SELECT 1 FROM events e WHERE
<the same predicate as the delete> LIMIT batch_size) SELECT COUNT(*)`. -/
def cleanupEventsDryCount (db : Env) (cutoff batchSize : Nat) : Nat :=
  ((db.events.filter (eventDeletable db cutoff)).take batchSize).length

/-- One batch of `EventCleaner.cleanup` (cleanup_events_v1.py lines
432-535): the dry-run branch runs the (valid) candidate SELECT above and
counts its rows without touching the database; the DELETE of the
non-dry-run branch places `ORDER BY received_at LIMIT %s` directly inside
`DELETE FROM events`, which PostgreSQL rejects, so it raises a
ProgrammingError and deletes nothing.  Returns the database and either
the reported count or the raised error. -/
def cleanupV1Step (db : Env) (dryRun : Bool) (processed : List Nat)
    (cutoff batchSize : Nat) : Env × Except PyExc Nat :=
  if dryRun then
    (db, .ok (cleanupEventsDryBatchV1 db processed cutoff batchSize).length)
  else (db, .error PyExc.programmingErr)

/-! ### Claim C9 -/

/-- C9 (counterexample): the claim says dry-run candidate counts equal the
non-dry-run deleted counts per lane.  The v2 `clean_function_data` in
dry-run mode returns all-zero stats without running any candidate query:
on a snapshot with one eligible completed run the dry-run reports 0
function runs while a non-dry-run invocation deletes 1. -/
theorem c9_false_on_v2_dry_run :
    (cleanFunctionDataV2 ⟨[], [⟨1, 0, none, none⟩], [⟨1, 5⟩], [], [], [], []⟩
        true (fun _ => false) 10 0 100).stats = FnStats.zero ∧
    (cleanFunctionDataV2 ⟨[], [⟨1, 0, none, none⟩], [⟨1, 5⟩], [], [], [], []⟩
        false (fun _ => false) 10 0 100).stats.functionRuns = 1 := by decide

/-- C9 (amended): a dry-run invocation deletes zero rows in every cleaner
(v1 events step, v2 function-data, v2 events); in the cleanup_events.py
events cleaner the dry-run candidate count of a batch equals the row
count the non-dry-run delete removes against the same snapshot; the
v2/v3 dry-run branches instead report zero counts without counting
candidates, and the v1 non-dry events delete is invalid PostgreSQL, so
it raises and removes nothing while the v1 dry-run counts candidates. -/
theorem c9_dry_run_equivalence (db : Env) (fails : Stmt → Bool)
    (cutoff extCutoff batchSize : Nat) :
    (cleanupV1Step db true [] cutoff batchSize).1 = db ∧
    cleanupEventsDryCount db cutoff batchSize =
      (cleanupEventsBatch db cutoff batchSize).2 ∧
    (cleanFunctionDataV2 db true fails cutoff extCutoff batchSize).env = db ∧
    (cleanEventsV2 db true cutoff batchSize).1 = db ∧
    (cleanupV1Step db false [] cutoff batchSize).1 = db ∧
    (cleanupV1Step db false [] cutoff batchSize).2 = .error PyExc.programmingErr := by
  refine ⟨rfl, ?_, rfl, rfl, rfl, rfl⟩
  unfold cleanupEventsDryCount cleanupEventsBatch
  simp only [List.length_map, List.length_take, length_sortByKey]

/-! ### Lane dynamics of the orchestrators
(src/v2/cleanup_inngest_env.py run_cleanup, src/cleanupv2.py main) -/

/-- A single lane of the orchestrator loop: repeat the batch step of the lane;
after a step that reports strictly fewer rows than `batch_size` the lane
is EXHAUSTED (`true`) and stops (`needs_more[lane] = False` in
`run_cleanup`, `tasks_state[lane] = False` in cleanupv2 main); fuel
bounds the iterations (`false` = fuel ran out while still ACTIVE).
Returns the final database, the per-cycle counts, and the exhausted
flag. -/
def laneRun (step : Env → Env × Nat) (batchSize : Nat) : Nat → Env → Env × List Nat × Bool
  | 0, db => (db, [], false)
  | fuel + 1, db =>
    let s := step db
    if s.2 < batchSize then (s.1, [s.2], true)
    else
      let rest := laneRun step batchSize fuel s.1
      (rest.1, s.2 :: rest.2.1, rest.2.2)

theorem laneRun_exhausted_iff_short_batch (step : Env → Env × Nat) (batchSize : Nat) :
    ∀ fuel db db' cs, laneRun step batchSize fuel db = (db', cs, true) →
      ∃ cs' c, cs = cs' ++ [c] ∧ c < batchSize ∧ ∀ x ∈ cs', batchSize ≤ x := by
  intro fuel
  induction fuel with
  | zero =>
    intro db db' cs h
    simp [laneRun, Prod.ext_iff] at h
  | succ f ih =>
    intro db db' cs h
    unfold laneRun at h
    by_cases hlt : (step db).2 < batchSize
    · simp only [if_pos hlt, Prod.mk.injEq] at h
      exact ⟨[], (step db).2, h.2.1.symm, hlt, by intro x hx; cases hx⟩
    · simp only [if_neg hlt, Prod.mk.injEq] at h
      have hrest : laneRun step batchSize f (step db).1 =
          ((laneRun step batchSize f (step db).1).1,
            (laneRun step batchSize f (step db).1).2.1, true) := by
        apply Prod.ext_iff.mpr
        exact ⟨rfl, Prod.ext_iff.mpr ⟨rfl, h.2.2⟩⟩
      rcases ih (step db).1 _ _ hrest with ⟨cs', c, hcs, hc, hall⟩
      refine ⟨(step db).2 :: cs', c, ?_, hc, ?_⟩
      · rw [← h.2.1, hcs]
        rfl
      · intro x hx
        rcases List.mem_cons.mp hx with rfl | hx'
        · omega
        · exact hall x hx'

theorem laneRun_active_all_full (step : Env → Env × Nat) (batchSize : Nat) :
    ∀ fuel db db' cs, laneRun step batchSize fuel db = (db', cs, false) →
      ∀ x ∈ cs, batchSize ≤ x := by
  intro fuel
  induction fuel with
  | zero =>
    intro db db' cs h
    simp only [laneRun, Prod.mk.injEq] at h
    rw [← h.2.1]
    intro x hx
    cases hx
  | succ f ih =>
    intro db db' cs h
    unfold laneRun at h
    by_cases hlt : (step db).2 < batchSize
    · simp only [if_pos hlt, Prod.mk.injEq] at h
      exact absurd h.2.2 (by simp)
    · simp only [if_neg hlt, Prod.mk.injEq] at h
      have hrest : laneRun step batchSize f (step db).1 =
          ((laneRun step batchSize f (step db).1).1,
            (laneRun step batchSize f (step db).1).2.1, false) := by
        apply Prod.ext_iff.mpr
        exact ⟨rfl, Prod.ext_iff.mpr ⟨rfl, h.2.2⟩⟩
      have hall := ih (step db).1 _ _ hrest
      rw [← h.2.1]
      intro x hx
      rcases List.mem_cons.mp hx with rfl | hx'
      · omega
      · exact hall x hx'

/-! ### Claim C6 -/

set_option maxRecDepth 10000 in
/-- C6: a lane is EXHAUSTED exactly when its last batch returned strictly
fewer rows than `batch_size` (every earlier batch was full, and a lane
that is still ACTIVE has only seen full batches); and the spec scenario:
on a snapshot with 250 eligible events and `batch_size = 100`, the v2
events lane runs exactly three cycles deleting 100, 100 and 50 rows and
is EXHAUSTED after the third. -/
theorem c6_lane_exhaustion :
    (∀ (step : Env → Env × Nat) (batchSize fuel : Nat) (db db' : Env) (cs : List Nat),
      laneRun step batchSize fuel db = (db', cs, true) →
        ∃ cs' c, cs = cs' ++ [c] ∧ c < batchSize ∧ ∀ x ∈ cs', batchSize ≤ x) ∧
    (∀ (step : Env → Env × Nat) (batchSize fuel : Nat) (db db' : Env) (cs : List Nat),
      laneRun step batchSize fuel db = (db', cs, false) → ∀ x ∈ cs, batchSize ≤ x) ∧
    laneRun (fun db => cleanEventsV2 db false 1000 100) 100 10
        ⟨(List.range 250).map (fun i => ⟨i + 1, 0⟩), [], [], [], [], [], []⟩ =
      (Env.empty, [100, 100, 50], true) := by
  refine ⟨?_, ?_, ?_⟩
  · intro step batchSize fuel db db' cs h
    exact laneRun_exhausted_iff_short_batch step batchSize fuel db db' cs h
  · intro step batchSize fuel db db' cs h
    exact laneRun_active_all_full step batchSize fuel db db' cs h
  · decide

/-- C6 (witness): the exhaustion characterisation applied to a lane whose
single batch returns 0 rows with `batch_size = 1`: the count trace is
`[] ++ [0]` with `0 < 1`. -/
theorem c6_lane_exhaustion_witness :
    ∃ cs' c, ([0] : List Nat) = cs' ++ [c] ∧ c < 1 ∧ ∀ x ∈ cs', 1 ≤ x :=
  c6_lane_exhaustion.1 (fun db => (db, 0)) 1 1 Env.empty Env.empty [0] rfl

/-! ### cleanupv2.py main (lines 240-298) -/

/-- Source: `cleanup_function_data` (cleanupv2.py lines 50-84) as a database
effect: deletes the `function_runs`, `function_finishes` and `history`
rows for the selected ids (statement order as in
`cleanupv2FunctionDeleteStmts`) and returns the candidate count. -/
def cleanupv2FunctionDataBatch (db : Env) (cutoff batchSize : Nat) : Env × Nat :=
  let ids := cleanupv2FunctionRunSelection db cutoff batchSize
  if ids.isEmpty then (db, 0)
  else
    ({ db with
        functionRuns := db.functionRuns.filter (fun r => !(ids.contains r.runId)),
        functionFinishes := db.functionFinishes.filter (fun f => !(ids.contains f.runId)),
        history := db.history.filter (fun h => !(ids.contains h.runId)) },
      ids.length)

/-- Source: `cleanup_events` (cleanupv2.py lines 86-137): the keep set is every
event id referenced by `function_runs` or `history` (no age filter, no
batch check); deletes up to `batch_size` events older than the cutoff
that are not in the keep set. -/
def cleanupv2EventsBatch (db : Env) (cutoff batchSize : Nat) : Env × Nat :=
  let keep := db.functionRuns.filterMap (fun fr => fr.eventId) ++
    db.history.filterMap (fun h => h.eventId)
  let victims := ((db.events.filter
      (fun e => e.receivedAt < cutoff && !(keep.contains e.internalId))).take
    batchSize).map (fun e => e.internalId)
  ({ db with events := db.events.filter (fun e => !(victims.contains e.internalId)) },
    victims.length)

/-- Source: `cleanup_trace_data` (cleanupv2.py lines 139-165) as a database
effect: deletes `traces` then `trace_runs` for the selected ids. -/
def cleanupv2TraceDataBatch (db : Env) (cutoff batchSize : Nat) : Env × Nat :=
  let ids := cleanupv2TraceSelection db cutoff batchSize
  if ids.isEmpty then (db, 0)
  else
    ({ db with
        traces := db.traces.filter (fun t => !(ids.contains t.runId)),
        traceRuns := db.traceRuns.filter (fun t => !(ids.contains t.runId)) },
      ids.length)

/-- Source: `tasks_state` of main (cleanupv2.py lines 248-252). -/
structure TasksState where
  functionData : Bool
  events : Bool
  traceData : Bool
  deriving DecidableEq, Repr

/-- Source: `any(tasks_state.values())`. -/
def anyActive (st : TasksState) : Bool := st.functionData || st.events || st.traceData

/-- Per-lane cycle counters (for stating how often each lane ran). -/
structure LaneCycles where
  functionData : Nat
  events : Nat
  traceData : Nat
  deriving DecidableEq, Repr

/-- One pass over the three lanes inside the while-loop body of main
(cleanupv2.py lines 255-274): each active lane runs one batch and is
marked done when its count is below `BATCH_SIZE`.  Returns the new
database, the new task state, and how many cycles each lane ran in this
pass. -/
def mainLanesPass (db : Env) (st : TasksState) (cutoff batchSize : Nat) :
    Env × TasksState × LaneCycles :=
  let p1 : Env × Bool × Nat :=
    if st.functionData then
      let r := cleanupv2FunctionDataBatch db cutoff batchSize
      (r.1, decide (batchSize ≤ r.2), 1)
    else (db, false, 0)
  let p2 : Env × Bool × Nat :=
    if st.events then
      let r := cleanupv2EventsBatch p1.1 cutoff batchSize
      (r.1, decide (batchSize ≤ r.2), 1)
    else (p1.1, false, 0)
  let p3 : Env × Bool × Nat :=
    if st.traceData then
      let r := cleanupv2TraceDataBatch p2.1 cutoff batchSize
      (r.1, decide (batchSize ≤ r.2), 1)
    else (p2.1, false, 0)
  (p3.1, ⟨p1.2.1, p2.2.1, p3.2.1⟩, ⟨p1.2.2, p2.2.2, p3.2.2⟩)

/-- Python name lookup for `i` in the statement `i += 1` (cleanupv2.py
line 278): `i` is never bound anywhere in `main`, so evaluating the
augmented assignment raises `NameError`. -/
def incrementUnboundI : Except Unit Nat := .error ()

/-- Outcome of `main` (cleanupv2.py lines 240-298): the `except` handler
at line 293 (entered on the NameError, with rollback and close), or the
completion path at lines 280-291 (final log plus `run_maintenance`), or
fuel exhaustion of the model. -/
inductive MainOutcome
  | handlerEntered (db : Env) (cycles : LaneCycles)
  | completionPath (db : Env) (cycles : LaneCycles)
  | fuelOut
  deriving DecidableEq, Repr

/-- The while-loop of main (cleanupv2.py lines 254-278): while any lane
is active, run one pass over the lanes and then execute `i += 1`, whose
name lookup raises; `cyc` accumulates the per-lane cycle counts. -/
def mainLoop (cutoff batchSize : Nat) :
    Nat → Env → TasksState → LaneCycles → MainOutcome
  | 0, _, _, _ => .fuelOut
  | fuel + 1, db, st, cyc =>
    if anyActive st then
      let p := mainLanesPass db st cutoff batchSize
      match incrementUnboundI with
      | .error _ => .handlerEntered p.1
          ⟨cyc.functionData + p.2.2.functionData, cyc.events + p.2.2.events,
            cyc.traceData + p.2.2.traceData⟩
      | .ok _ => mainLoop cutoff batchSize fuel p.1 p.2.1
          ⟨cyc.functionData + p.2.2.functionData, cyc.events + p.2.2.events,
            cyc.traceData + p.2.2.traceData⟩
    else .completionPath db cyc

/-- Source: `main` (cleanupv2.py): all three lanes start active and the loop
runs. -/
def cleanupv2Main (db : Env) (cutoff batchSize fuel : Nat) : MainOutcome :=
  mainLoop cutoff batchSize fuel db ⟨true, true, true⟩ ⟨0, 0, 0⟩

/-! ### Claim C10 -/

/-- C10: for every starting database, `main` of cleanupv2.py performs
exactly one Select+Delete cycle per lane and then enters the exception
handler: the `i += 1` at the end of the first loop iteration raises
NameError (`i` is never bound), so the loop never reaches a second
iteration and the completion path (the final log and `run_maintenance`)
is unreachable. -/
theorem c10_main_raises_after_one_pass (db : Env) (cutoff batchSize fuel : Nat)
    (hfuel : 1 ≤ fuel) :
    cleanupv2Main db cutoff batchSize fuel =
      .handlerEntered (mainLanesPass db ⟨true, true, true⟩ cutoff batchSize).1
        ⟨1, 1, 1⟩ ∧
    ∀ db' cyc, cleanupv2Main db cutoff batchSize fuel ≠ .completionPath db' cyc := by
  cases fuel with
  | zero => omega
  | succ f =>
    have hmain : cleanupv2Main db cutoff batchSize (f + 1) =
        .handlerEntered (mainLanesPass db ⟨true, true, true⟩ cutoff batchSize).1
          ⟨1, 1, 1⟩ := rfl
    refine ⟨hmain, ?_⟩
    intro db' cyc hcontra
    rw [hmain] at hcontra
    exact MainOutcome.noConfusion hcontra

/-- C10 (witness): on the empty database with fuel 3, main lands in the
exception handler after one cycle per lane. -/
theorem c10_main_raises_after_one_pass_witness :
    cleanupv2Main Env.empty 10 100 3 =
      .handlerEntered (mainLanesPass Env.empty ⟨true, true, true⟩ 10 100).1 ⟨1, 1, 1⟩ :=
  (c10_main_raises_after_one_pass Env.empty 10 100 3 (by omega)).1

end InngestCleanup
